import Mathlib

/-!
# Verification of the loyalty-system reconciliation and ledger core

A shallow embedding of the Go sources of `yaprac-loyalty-system`:
the relational ledger (`internal/db/db.go`, `internal/db/errors.go`,
`internal/db/migrations/000001_init_schema.up.sql`), the HTTP handler
error mapping (`internal/handlers`), and the reconciliation poller with
its accrual client (`internal/service/accrual/accrual.go`).

Money amounts are `DECIMAL(10,2)` in the schema and are summed and
compared exactly by PostgreSQL; they are embedded as `ℚ`.
-/

namespace Loyalty

/-- Order status, mirroring the `order_status` PostgreSQL enum
(`'NEW', 'PROCESSING', 'INVALID', 'PROCESSED'`) and the
`models.OrderStatus` constants. -/
inductive OrderStatus where
  | new
  | processing
  | invalid
  | processed
deriving DecidableEq, Repr

/-- A row of the `orders` table: `order_number` (unique primary key),
`user_id`, `status` (default `'NEW'`), `accrual DECIMAL(10,2)` which is
nullable (`CreateOrder` inserts only number and user, leaving it NULL). -/
structure OrderRow where
  number : String
  userId : Int
  status : OrderStatus
  accrual : Option ℚ
deriving DecidableEq, Repr

/-- A row of the `withdrawals` table: primary key `(user_id, order_number)`,
`summ DECIMAL(10,2) NOT NULL CHECK (summ > 0)`. -/
structure WithdrawalRow where
  userId : Int
  number : String
  summ : ℚ
deriving DecidableEq, Repr

/-- The ledger state: the contents of the two balance-relevant tables. -/
structure Ledger where
  orders : List OrderRow
  withdrawals : List WithdrawalRow
deriving DecidableEq, Repr

/-- The empty database produced by the migration. -/
def Ledger.empty : Ledger := ⟨[], []⟩

/-- The Go `models.Balance`: the pair returned by `GetBalance`. -/
structure Balance where
  current : ℚ
  withdrawn : ℚ
deriving DecidableEq, Repr

/-- The Go `models.Withdrawal` as consumed by `DB.Withdraw`:
order number, user id and amount (`Sum` in Go). -/
structure WithdrawalReq where
  number : String
  userId : Int
  summ : ℚ
deriving DecidableEq, Repr

/-- Embeds `SELECT COALESCE(SUM(summ), 0) FROM withdrawals WHERE user_id = $1`
(first query of `loadBalance`, db.go:210).  `COALESCE` makes the scanned
`*float64` always non-nil, hence `Option.some`. -/
def sqlWithdrawnSum (s : Ledger) (userId : Int) : Option ℚ :=
  some (((s.withdrawals.filter (fun w => w.userId = userId)).map
    (fun w => w.summ)).sum)

/-- Embeds `SELECT COALESCE(SUM(accrual), 0) FROM orders WHERE user_id = $1 AND
status = 'PROCESSED'` (second query of `loadBalance`, db.go:216).
`SUM` ignores NULL `accrual` cells, embedded as contributing `0`. -/
def sqlAccrualSum (s : Ledger) (userId : Int) : Option ℚ :=
  some (((s.orders.filter
      (fun o => o.userId = userId ∧ o.status = OrderStatus.processed)).map
    (fun o => o.accrual.getD 0)).sum)

/-- Embeds `DB.loadBalance` (db.go:201-230): runs the two sum queries, then the
Go nil-guards: `Withdrawn` is set when the withdrawn scan is non-nil, and
`Current := accrual - Withdrawn` when the accrual scan is non-nil. -/
def loadBalance (s : Ledger) (userId : Int) : Balance :=
  let withdrawn? := sqlWithdrawnSum s userId
  let accrual? := sqlAccrualSum s userId
  let b1 : Balance := ⟨0, 0⟩
  let b2 : Balance :=
    match withdrawn? with
    | some w => { b1 with withdrawn := w }
    | none => b1
  match accrual? with
  | some a => { b2 with current := a - b2.withdrawn }
  | none => b2

/-- Embeds `DB.GetBalance` (db.go:179-198): opens a transaction and returns
`loadBalance` of the snapshot it reads (single-state view; the
read-committed two-snapshot behaviour is modelled separately below). -/
def getBalance (s : Ledger) (userId : Int) : Balance :=
  loadBalance s userId

/-- The result signalled by `DB.Withdraw` (db.go:233-278): success,
`ErrInsufficientBalance`, `ErrOrderAlreadyExists` (duplicate
`(user_id, order_number)` key), or a wrapped storage error
(mapped to HTTP 500 "Internal" by the handler). -/
inductive WithdrawResult where
  | ok
  | insufficientFunds
  | alreadyExists
  | internalErr
deriving DecidableEq, Repr

/-- Embeds `DB.Withdraw` (db.go:233-278).  The transaction takes
`LOCK TABLE orders IN EXCLUSIVE MODE` and
`LOCK TABLE withdrawals IN EXCLUSIVE MODE`, so the whole body is a
single atomic step against every other writer; the embedding makes it
one function application.  Steps: recompute the balance with
`loadBalance`; if `balance.Current < withdrawal.Sum` roll back with
`ErrInsufficientBalance`; otherwise `INSERT INTO withdrawals ...`, where
PostgreSQL checks the row constraint `CHECK (summ > 0)` before the
unique-key index, so a non-positive amount is a check violation (wrapped
storage error), and a duplicate `(user_id, order_number)` key is
`ErrOrderAlreadyExists`.  Every error path rolls the transaction back,
returning the ledger unchanged. -/
def withdraw (s : Ledger) (w : WithdrawalReq) : WithdrawResult × Ledger :=
  let balance := loadBalance s w.userId
  if balance.current < w.summ then
    (WithdrawResult.insufficientFunds, s)
  else if w.summ ≤ 0 then
    (WithdrawResult.internalErr, s)
  else if s.withdrawals.any
      (fun r => r.userId = w.userId ∧ r.number = w.number) then
    (WithdrawResult.alreadyExists, s)
  else
    (WithdrawResult.ok,
      { s with withdrawals := s.withdrawals ++ [⟨w.userId, w.number, w.summ⟩] })

/-- The `DB.UpdateOrder` result: success, `ErrOrderNotFound` (zero rows
affected), or a storage error (the `CHECK (accrual >= 0)` schema
constraint rejecting a negative accrual). -/
inductive UpdateResult where
  | ok
  | notFound
  | internalErr
deriving DecidableEq, Repr

/-- Embeds `DB.UpdateOrder` (db.go:335-347):
`UPDATE orders SET status = $1, accrual = $2 WHERE order_number = $3`.
There is no guard on the previous status: every row matching the number
is overwritten.  `RowsAffected() == 0` yields `ErrOrderNotFound`; the
schema constraint `CHECK (accrual >= 0)` rejects a negative accrual. -/
def updateOrder (s : Ledger) (number : String) (st : OrderStatus)
    (accrual : ℚ) : UpdateResult × Ledger :=
  if accrual < 0 then
    (UpdateResult.internalErr, s)
  else if s.orders.any (fun o => o.number = number) then
    (UpdateResult.ok,
      { s with orders := s.orders.map (fun o =>
          if o.number = number then
            { o with status := st, accrual := some accrual }
          else o) })
  else
    (UpdateResult.notFound, s)

/-- Embeds `DB.GetUnprocessedOrders` (db.go:309-332):
`SELECT ... FROM orders WHERE status IN ('NEW','PROCESSING')`. -/
def getUnprocessedOrders (s : Ledger) : List OrderRow :=
  s.orders.filter (fun o =>
    o.status = OrderStatus.new ∨ o.status = OrderStatus.processing)

/-- The error signalled by `DB.CreateOrder`/`DB.isUserOrder`: success,
`ErrOrderAlreadyExists`, `ErrOrderAlreadyAdded`, `ErrOrderNotFound`, or
a wrapped storage error. -/
inductive CreateOrderResult where
  | ok
  | errOrderAlreadyExists
  | errOrderAlreadyAdded
  | errOrderNotFound
  | internalErr
deriving DecidableEq, Repr

/-- The columns of the `orders` table as created by
`migrations/000001_init_schema.up.sql`.  The table has no column named
`order` (and `order` is a reserved SQL keyword), so a query whose WHERE
clause references `order` fails. -/
def ordersTableColumns : List String :=
  ["order_number", "user_id", "status", "accrual", "uploaded_at"]

/-- Embeds `SELECT user_id FROM orders WHERE <col> = $1`, evaluated against the
schema: referencing a column that does not exist in `orders` makes the
query itself fail (storage error); otherwise the lookup is by
`order_number` and returns `ErrNoRows` behaviour via `none`. -/
def selectOrderOwner (col : String) (number : String) (s : Ledger) :
    Except CreateOrderResult (Option Int) :=
  if col ∈ ordersTableColumns ∧ col = "order_number" then
    Except.ok ((s.orders.find? (fun o => o.number = number)).map
      (fun o => o.userId))
  else
    Except.error CreateOrderResult.internalErr

/-- Embeds `DB.isUserOrder` as in `internal/db/errors.go:35-69`: the follow-up
owner lookup is `SELECT user_id FROM orders WHERE order = $1` — it names
the column `order`, which does not exist in the schema — and, on a
successful scan, returns `ErrOrderAlreadyAdded` when the existing owner
IS the calling user and `ErrOrderAlreadyExists` otherwise. -/
def isUserOrder (s : Ledger) (number : String) (userId : Int) :
    CreateOrderResult :=
  match selectOrderOwner "order" number s with
  | Except.error e => e
  | Except.ok none => CreateOrderResult.errOrderNotFound
  | Except.ok (some owner) =>
      if owner = userId then CreateOrderResult.errOrderAlreadyAdded
      else CreateOrderResult.errOrderAlreadyExists

/-- Embeds `DB.isUserOrder` as in the alternative revision of `errors.go`
(src/unnamed/part_009:35-54): the lookup is by `order_number`, and it
returns `ErrOrderAlreadyExists` when the existing owner IS the calling
user and `ErrOrderAlreadyAdded` otherwise — matching the handler, which
maps `ErrOrderAlreadyExists` to HTTP 200 and `ErrOrderAlreadyAdded` to
HTTP 409. -/
def isUserOrderPart009 (s : Ledger) (number : String) (userId : Int) :
    CreateOrderResult :=
  match selectOrderOwner "order_number" number s with
  | Except.error e => e
  | Except.ok none => CreateOrderResult.errOrderNotFound
  | Except.ok (some owner) =>
      if owner = userId then CreateOrderResult.errOrderAlreadyExists
      else CreateOrderResult.errOrderAlreadyAdded

/-- The `errors.go` `isUserOrder` with only the broken column name repaired
(lookup by `order_number`), keeping its swapped classification: used to
show that even then the same-user case signals `ErrOrderAlreadyAdded`
(HTTP 409) rather than the no-op success. -/
def isUserOrderColumnFixed (s : Ledger) (number : String) (userId : Int) :
    CreateOrderResult :=
  match selectOrderOwner "order_number" number s with
  | Except.error e => e
  | Except.ok none => CreateOrderResult.errOrderNotFound
  | Except.ok (some owner) =>
      if owner = userId then CreateOrderResult.errOrderAlreadyAdded
      else CreateOrderResult.errOrderAlreadyExists

/-- Embeds `DB.CreateOrder` (db.go:120-147):
`INSERT INTO orders (order_number, user_id) VALUES ($1, $2)` — status
takes the schema default `'NEW'` and accrual stays NULL.  On a
unique-constraint violation the transaction defers to the follow-up
classification lookup (parameterised here by the `isUserOrder` variant);
in every error case the insert is rolled back and the ledger is
unchanged. -/
def createOrderWith
    (classify : Ledger → String → Int → CreateOrderResult)
    (s : Ledger) (number : String) (userId : Int) :
    CreateOrderResult × Ledger :=
  if s.orders.any (fun o => o.number = number) then
    (classify s number userId, s)
  else
    (CreateOrderResult.ok,
      { s with orders := s.orders ++
          [⟨number, userId, OrderStatus.new, none⟩] })

/-- Embeds `DB.CreateOrder` with the classification of `errors.go` (the file at
`src/internal/db/errors.go`). -/
def createOrder (s : Ledger) (number : String) (userId : Int) :
    CreateOrderResult × Ledger :=
  createOrderWith isUserOrder s number userId

/-- Embeds `DB.CreateOrder` with the classification of the part_009 revision of
`errors.go`. -/
def createOrderPart009 (s : Ledger) (number : String) (userId : Int) :
    CreateOrderResult × Ledger :=
  createOrderWith isUserOrderPart009 s number userId

/-- The outcome the order-intake handler reports to the HTTP caller
(`handlers.CreateOrder`, src/unnamed/part_004:476-525). -/
inductive IntakeOutcome where
  | accepted
  | alreadyOwned
  | conflict
  | internalOutcome
deriving DecidableEq, Repr

/-- The handler's mapping of `CreateOrder` errors
(src/unnamed/part_004:504-525): `nil` → 202 Accepted;
`ErrOrderAlreadyAdded` → 409 Conflict ("Order already added by another
user"); `ErrOrderAlreadyExists` → 200 OK ("Order already added by this
user", the AlreadyOwned no-op success); anything else → 500. -/
def intakeOutcome (r : CreateOrderResult) : IntakeOutcome :=
  match r with
  | CreateOrderResult.ok => IntakeOutcome.accepted
  | CreateOrderResult.errOrderAlreadyAdded => IntakeOutcome.conflict
  | CreateOrderResult.errOrderAlreadyExists => IntakeOutcome.alreadyOwned
  | CreateOrderResult.errOrderNotFound => IntakeOutcome.internalOutcome
  | CreateOrderResult.internalErr => IntakeOutcome.internalOutcome

/-! ## Specification-side balance definitions

Written from the words of the spec (§3): the derived balance. -/

/-- Spec §3: `withdrawn = Σ(amount of this user's withdrawals)`. -/
def specWithdrawn (s : Ledger) (userId : Int) : ℚ :=
  (s.withdrawals.filter (fun w => w.userId = userId)).foldr
    (fun w acc => w.summ + acc) 0

/-- Spec §3: `Σ(accrual_amount of this user's PROCESSED orders)`;
`accrual_amount` is "unset/zero until status becomes PROCESSED", so an
unset cell counts as zero. -/
def specAccrual (s : Ledger) (userId : Int) : ℚ :=
  (s.orders.filter (fun o =>
      o.userId = userId ∧ o.status = OrderStatus.processed)).foldr
    (fun o acc => o.accrual.getD 0 + acc) 0

/-- Spec §3: `current = Σ(accrual_amount of PROCESSED orders) −
Σ(withdrawal amounts)`. -/
def specCurrent (s : Ledger) (userId : Int) : ℚ :=
  specAccrual s userId - specWithdrawn s userId

/-- The balance pair as the spec defines it. -/
def specBalance (s : Ledger) (userId : Int) : Balance :=
  ⟨specCurrent s userId, specWithdrawn s userId⟩

/-- The ledger-side `current` the code computes and compares against
(`loadBalance(...).Current`). -/
def currentBal (s : Ledger) (userId : Int) : ℚ :=
  (loadBalance s userId).current

/-! ## The system's transition relation

The mutating entry points of the core, as reachable in the deployed
system: order intake (`CreateOrder`, any number/user from the HTTP
handler), withdrawal (`Withdraw`, any request from the handler), and
`UpdateOrder`, whose only caller is the reconciliation poller
(`accrual.go:284-288`) — it is invoked with a terminal status
(`StatusProcessed`/`StatusInvalid` guard) on orders drawn from
`GetUnprocessedOrders`, i.e. orders that are stored with status NEW or
PROCESSING.  `Withdraw` takes `EXCLUSIVE` locks on both tables, which
conflict with every other write, so each operation is one atomic step. -/
inductive Step : Ledger → Ledger → Prop where
  | intake (s : Ledger) (number : String) (userId : Int) :
      Step s (createOrder s number userId).2
  | pollerUpdate (s : Ledger) (number : String) (st : OrderStatus)
      (accrual : ℚ)
      (hterm : st = OrderStatus.processed ∨ st = OrderStatus.invalid)
      (hpolled : ∃ r ∈ s.orders, r.number = number ∧
        (r.status = OrderStatus.new ∨ r.status = OrderStatus.processing)) :
      Step s (updateOrder s number st accrual).2
  | spend (s : Ledger) (w : WithdrawalReq) :
      Step s (withdraw s w).2

/-- States reachable from the migrated (empty) database by the system's
operations. -/
inductive Reachable : Ledger → Prop where
  | init : Reachable Ledger.empty
  | step {s s' : Ledger} : Reachable s → Step s s' → Reachable s'

/-! ## Accrual client and reconciliation poller -/

/-- The JSON body of the authority's `200` response (spec §6):
`{order: string, status: "REGISTERED"|"PROCESSING"|"INVALID"|"PROCESSED",
accrual?: number}`.  An absent `accrual` decodes to the zero value. -/
structure AccrualBody where
  order : String
  status : String
  accrual : ℚ
deriving DecidableEq, Repr

/-- The authority's response space (spec §6) as the accrual client's
switch sees it (`getAccrual`, accrual.go:263-276): a transport/timeout
error, `200` (with a body that either unmarshals or not), `204`, `429`
(with a `Retry-After` header that either parses as an integer or not),
or `500`. -/
inductive AccrualResp where
  | transportErr
  | ok200 (body : Option AccrualBody)
  | noContent
  | tooManyRequests (retryAfter : Option Int)
  | serverErr
deriving DecidableEq, Repr

/-- The result of `json.Unmarshal` into `models.Order`. -/
structure JsonOrder where
  number : String
  status : String
  accrual : ℚ
deriving DecidableEq, Repr

/-- Embeds `json.Unmarshal(resp.Body(), gotOrder)` (accrual.go:279) with
`gotOrder : *models.Order`.  The struct tags are `number`, `status`,
`accrual` (models.go:23-29); the body's keys are `order`, `status`,
`accrual`, so `status` and `accrual` bind, while the key `order` matches
no field — `Number` keeps its zero value `""`. -/
def goUnmarshalOrder (b : AccrualBody) : JsonOrder :=
  ⟨"", b.status, b.accrual⟩

/-- Modelled from the spec: the decoding the protocol intends, in which
the body's `order` field carries the order number (spec §6 and the
repo's own accrual tests, which expect `Number == "123"` from the body
`{"order": "123", ...}`).  Used only to exhibit what reconciliation
would do were the number bound. -/
def specUnmarshalOrder (b : AccrualBody) : JsonOrder :=
  ⟨b.order, b.status, b.accrual⟩

/-- The status enum value the poller writes for a terminal JSON status
string. -/
def terminalStatusOf (status : String) : OrderStatus :=
  if status = "PROCESSED" then OrderStatus.processed else OrderStatus.invalid

/-- Outcome of one `getAccrual` call: the value stored into the shared
`sendAfter` throttle (if any), the `UpdateOrder` invocation (if any),
whether an error is signalled into `errCh`, and the resulting ledger. -/
structure OrderPollResult where
  storeDelay : Option ℕ
  invokedUpdate : Option JsonOrder
  isErr : Bool
  state : Ledger
deriving DecidableEq, Repr

/-- Embeds `AccrualService.getAccrual` (accrual.go:255-291), parameterised by
the decoding in use.  `429`: parse `Retry-After`; on parse failure
return an error without storing; otherwise store `uint32(retryAfter)`
into the single shared `sendAfter` and return an error.  `204`/`500`/
transport error: error.  Otherwise unmarshal the body; when the decoded
status is `PROCESSED` or `INVALID`, invoke `UpdateOrder` (an update
failure is itself an error); any other decoded status is "no result
yet" — success with no write. -/
def getAccrualWith (decode : AccrualBody → JsonOrder) (s : Ledger)
    (resp : AccrualResp) : OrderPollResult :=
  match resp with
  | AccrualResp.transportErr => ⟨none, none, true, s⟩
  | AccrualResp.tooManyRequests retryAfter =>
      match retryAfter with
      | none => ⟨none, none, true, s⟩
      | some n => ⟨some ((n % 4294967296).toNat), none, true, s⟩
  | AccrualResp.noContent => ⟨none, none, true, s⟩
  | AccrualResp.serverErr => ⟨none, none, true, s⟩
  | AccrualResp.ok200 body =>
      match body with
      | none => ⟨none, none, true, s⟩
      | some b =>
          let got := decode b
          if got.status = "PROCESSED" ∨ got.status = "INVALID" then
            let r := updateOrder s got.number (terminalStatusOf got.status)
              got.accrual
            ⟨none, some got, r.1 ≠ UpdateResult.ok, r.2⟩
          else
            ⟨none, none, false, s⟩

/-- The `getAccrual` of the Go code, with its actual decoding. -/
def getAccrual (s : Ledger) (resp : AccrualResp) : OrderPollResult :=
  getAccrualWith goUnmarshalOrder s resp

/-- One reconciliation pass over the fetched unresolved orders
(`processOrders`/`createRequesters`, accrual.go:205-253), parameterised
by the decoding: the incoming pending delay is consumed (slept off and
reset to zero) before any request is dispatched, then each response is
classified in turn; `sendAfter.Store` overwrites, so a later `429` wins;
errors accumulate into `errCh`.  Returns (ledger, pending delay left
for the next pass, whether any error was signalled). -/
def processPassWith (decode : AccrualBody → JsonOrder) (s : Ledger)
    (resps : List AccrualResp) : Ledger × ℕ × Bool :=
  resps.foldl (fun acc resp =>
    let r := getAccrualWith decode acc.1 resp
    (r.state, r.storeDelay.getD acc.2.1, acc.2.2 || r.isErr))
    (s, 0, false)

/-- A reconciliation pass as the Go code runs it. -/
def processPass (s : Ledger) (resps : List AccrualResp) :
    Ledger × ℕ × Bool :=
  processPassWith goUnmarshalOrder s resps

/-- The `Start` loop (accrual.go:182-203): each tick runs a pass; an
erroring pass is only logged (`s.logger.Errorf`) and the loop
continues, so pass errors never reach any caller — the externally
visible result is the ledger alone. -/
def runPoller (s : Ledger) (passes : List (List AccrualResp)) : Ledger :=
  match passes with
  | [] => s
  | resps :: rest => runPoller (processPass s resps).1 rest

/-! ## Timed model of the rate-limit throttle (claim C8)

Only the `429` events and the pass boundaries matter.  Lookups of pass
`k` are issued at its dispatch instant, which follows the sleep that
consumes the pending delay; every response of a pass arrives after its
dispatch and before the next pass starts (`processOrders` joins the
`WaitGroup` before returning to the ticker loop). -/

/-- One response event in a pass: its arrival time (seconds) and, when
it was a `429`, the parsed `Retry-After` value. -/
structure RLEvent where
  t : ℚ
  retry : Option ℕ
deriving DecidableEq, Repr

/-- One reconciliation pass: its start instant and its response events
in arrival order. -/
structure PassT where
  start : ℚ
  events : List RLEvent
deriving DecidableEq, Repr

/-- The value of the shared `sendAfter` cell after a pass: it was reset
to zero when the pass consumed it, and each `429` overwrote it
(`sendAfter.Store`, accrual.go:270), so the last `429` wins. -/
def pendingOut (evs : List RLEvent) : ℕ :=
  evs.foldl (fun acc e => e.retry.getD acc) 0

/-- The pending delay a pass consumes: what the previous pass left. -/
def pendingIn (tr : List PassT) : ℕ → ℕ
  | 0 => 0
  | k + 1 =>
      match tr.get? k with
      | some p => pendingOut p.events
      | none => 0

/-- The instant at which pass `k` dispatches its lookups: its start plus
the sleep that consumes the pending delay (accrual.go:226-231). -/
def dispatchTime (tr : List PassT) (k : ℕ) : ℚ :=
  match tr.get? k with
  | some p => p.start + (pendingIn tr k : ℚ)
  | none => 0

/-- Well-formed timed trace: events of a pass arrive after its dispatch,
in chronological order, and the next pass starts only after every event
of the previous pass (the pass joins all its requests) and after the
previous dispatch. -/
def wfTrace (tr : List PassT) : Prop :=
  ∀ k p, tr.get? k = some p →
    (∀ e ∈ p.events, dispatchTime tr k ≤ e.t) ∧
    p.events.Pairwise (fun a b => a.t ≤ b.t) ∧
    (∀ q, tr.get? (k + 1) = some q →
      dispatchTime tr k ≤ q.start ∧ ∀ e ∈ p.events, e.t ≤ q.start)

/-- The last `429` event of a pass (the one whose value survives in
`sendAfter`). -/
def lastRetryEvent (evs : List RLEvent) : Option RLEvent :=
  evs.foldl (fun acc e => if e.retry.isSome then some e else acc) none

/-- Claim C8 as stated: after ANY `429` carrying `Retry-After: N`
received in some pass, every later pass dispatches no lookup until `N`
seconds after that response. -/
def rateLimitRespectClaim : Prop :=
  ∀ tr : List PassT, wfTrace tr →
    ∀ k p, tr.get? k = some p →
      ∀ e ∈ p.events, ∀ n : ℕ, e.retry = some n →
        ∀ k' q, k < k' → tr.get? k' = some q →
          e.t + (n : ℚ) ≤ dispatchTime tr k'

/-- A trace with two `429`s in one pass: `Retry-After: 100` at `t = 1`,
then `Retry-After: 1` at `t = 2`; the next pass starts at `t = 3`. -/
def exTraceTwo429 : List PassT :=
  [⟨0, [⟨1, some 100⟩, ⟨2, some 1⟩]⟩, ⟨3, []⟩]

/-- A trace with a single `429` (`Retry-After: 2` at `t = 1`); the next
pass starts at `t = 5`. -/
def exTraceOne429 : List PassT :=
  [⟨0, [⟨1, some 2⟩]⟩, ⟨5, []⟩]

/-! ## Read-committed two-snapshot model of `GetBalance` (claim C9)

`GetBalance` opens a plain `BEGIN` transaction (pgx default, PostgreSQL
READ COMMITTED), in which EACH statement sees the latest committed
state; `loadBalance` runs two statements (withdrawn sum first, accrual
sum second), so the two sums may be taken at two successive committed
states.  A history is an initial ledger plus a list of committed
operations; the read samples the withdrawn sum at commit index `i` and
the accrual sum at a later index `j`. -/

/-- A committed ledger mutation (each touches exactly one of the two
balance-relevant tables). -/
inductive CommitOp where
  | intake (number : String) (userId : Int)
  | update (number : String) (st : OrderStatus) (accrual : ℚ)
  | spend (w : WithdrawalReq)
deriving DecidableEq, Repr

/-- Apply one committed operation. -/
def applyCommit (s : Ledger) (c : CommitOp) : Ledger :=
  match c with
  | CommitOp.intake number userId => (createOrder s number userId).2
  | CommitOp.update number st accrual => (updateOrder s number st accrual).2
  | CommitOp.spend w => (withdraw s w).2

/-- The committed state after the first `k` operations of the history. -/
def stateAt (s0 : Ledger) (cs : List CommitOp) (k : ℕ) : Ledger :=
  (cs.take k).foldl applyCommit s0

/-- Embeds `GetBalance` under READ COMMITTED: the withdrawn sum scanned at
committed state `i`, the accrual sum at committed state `j`, assembled
exactly as `loadBalance` assembles them
(`Current := accrual − Withdrawn`). -/
def getBalanceRC (s0 : Ledger) (cs : List CommitOp) (i j : ℕ)
    (userId : Int) : Balance :=
  let withdrawn := (sqlWithdrawnSum (stateAt s0 cs i) userId).getD 0
  let accrual := (sqlAccrualSum (stateAt s0 cs j) userId).getD 0
  ⟨accrual - withdrawn, withdrawn⟩

/-- The returned pair satisfies the balance equation at some single
committed state of the history. -/
def rcConsistent (s0 : Ledger) (cs : List CommitOp) (userId : Int)
    (b : Balance) : Prop :=
  ∃ k ≤ cs.length, b = specBalance (stateAt s0 cs k) userId

/-- Claim C9 as stated: every `GetBalance` read is consistent with a
single state, whatever committed writes interleave its two statements. -/
def singleSnapshotClaim : Prop :=
  ∀ (s0 : Ledger) (cs : List CommitOp) (userId : Int) (i j : ℕ),
    i ≤ j → j ≤ cs.length →
    rcConsistent s0 cs userId (getBalanceRC s0 cs i j userId)

/-- History refuting C9: user 1 owns a PROCESSED order worth 10 and a
NEW order; a withdrawal of 10 commits, then the NEW order is reconciled
to PROCESSED/500. -/
def exHistBase : Ledger :=
  ⟨[⟨"1", 1, OrderStatus.processed, some 10⟩,
    ⟨"2", 1, OrderStatus.new, none⟩], []⟩

/-- The two commits interleaving the two balance statements. -/
def exHistOps : List CommitOp :=
  [CommitOp.spend ⟨"7", 1, 10⟩,
   CommitOp.update "2" OrderStatus.processed 500]

/-! ## Claim-statement definitions used by counterexamples -/

/-- Claim C3's duplicate-signal component as stated: whenever the
requested amount is within the recomputed balance, `Withdraw` signals
`AlreadyExists` exactly when a `(userID, orderNumber)` row already
exists. -/
def withdrawDuplicateClaim : Prop :=
  ∀ (s : Ledger) (w : WithdrawalReq),
    w.summ ≤ currentBal s w.userId →
    ((withdraw s w).1 = WithdrawResult.alreadyExists ↔
      s.withdrawals.any (fun r => r.userId = w.userId ∧ r.number = w.number))

/-- Ledger for the C3 counterexample: user 1 has one PROCESSED order
worth 5 and one withdrawal of 5 keyed `(1, "9")` — current balance 0. -/
def exLedgerC3 : Ledger :=
  ⟨[⟨"1", 1, OrderStatus.processed, some 5⟩], [⟨1, "9", 5⟩]⟩

/-- Claim C6's monotonicity component as stated: an order holding a
terminal status is never changed by any `UpdateOrder` call. -/
def updateMonotoneClaim : Prop :=
  ∀ (s : Ledger) (number : String) (st : OrderStatus) (accrual : ℚ)
    (r : OrderRow), r ∈ s.orders → r.number = number →
    (r.status = OrderStatus.processed ∨ r.status = OrderStatus.invalid) →
    ∀ r' ∈ (updateOrder s number st accrual).2.orders,
      r'.number = number → r'.status = r.status

/-- Ledger for the C6 counterexample: one PROCESSED order. -/
def exLedgerC6 : Ledger :=
  ⟨[⟨"1", 1, OrderStatus.processed, some 100⟩], []⟩

/-- Ledger for the C4 and C5 scenarios: order `"9278923470"` owned by
user 1 in status NEW (C4), and the Luhn-valid order `"79927398713"`
owned by user 1 in status NEW (C5). -/
def exLedgerC4 : Ledger :=
  ⟨[⟨"9278923470", 1, OrderStatus.new, none⟩], []⟩

/-- Ledger for the C5 reconciliation scenario. -/
def exLedgerC5 : Ledger :=
  ⟨[⟨"79927398713", 1, OrderStatus.new, none⟩], []⟩

/-- The authority's C5 response:
`200 {"order": "79927398713", "status": "PROCESSED", "accrual": 500}`. -/
def exRespC5 : AccrualResp :=
  AccrualResp.ok200 (some ⟨"79927398713", "PROCESSED", 500⟩)

/-- Per-row contribution of an order to a user's PROCESSED-accrual sum. -/
def contribOrder (userId : Int) (o : OrderRow) : ℚ :=
  if o.userId = userId ∧ o.status = OrderStatus.processed then
    o.accrual.getD 0
  else 0

/-- Per-row contribution of a withdrawal to a user's withdrawn sum. -/
def contribWithdrawal (userId : Int) (w : WithdrawalRow) : ℚ :=
  if w.userId = userId then w.summ else 0

/-- The ledger invariant carried through the reachability induction:
order numbers are pairwise distinct (the `orders` primary key), every
stored withdrawal amount is positive (the `CHECK (summ > 0)` schema
constraint), and every user's derived current balance is non-negative. -/
def LedgerInv (s : Ledger) : Prop :=
  s.orders.Pairwise (fun a b => a.number ≠ b.number) ∧
  (∀ w ∈ s.withdrawals, 0 < w.summ) ∧
  (∀ userId : Int, 0 ≤ specCurrent s userId)

/-! ## Helper lemmas -/

lemma sum_map_eq_foldr {α : Type} (l : List α) (f : α → ℚ) :
    (l.map f).sum = l.foldr (fun x acc => f x + acc) 0 := by
  induction l with
  | nil => simp
  | cons x t ih => simp [ih]

lemma specWithdrawn_eq_contrib (s : Ledger) (userId : Int) :
    specWithdrawn s userId =
      (s.withdrawals.map (contribWithdrawal userId)).sum := by
  unfold specWithdrawn contribWithdrawal
  rw [← sum_map_eq_foldr]
  induction s.withdrawals with
  | nil => simp
  | cons w t ih =>
      by_cases hw : w.userId = userId <;>
        simp [List.filter_cons, hw, ih]

lemma specAccrual_eq_contrib (s : Ledger) (userId : Int) :
    specAccrual s userId = (s.orders.map (contribOrder userId)).sum := by
  unfold specAccrual contribOrder
  rw [← sum_map_eq_foldr]
  induction s.orders with
  | nil => simp
  | cons o t ih =>
      simp only [Bool.decide_and] at ih ⊢
      by_cases h1 : o.userId = userId
      · by_cases h2 : o.status = OrderStatus.processed
        · simp [List.filter_cons, h1, h2, ih]
        · simp [List.filter_cons, h1, h2, ih]
      · simp [List.filter_cons, h1, ih]

lemma loadBalance_eq_specBalance (s : Ledger) (userId : Int) :
    loadBalance s userId = specBalance s userId := by
  unfold loadBalance sqlWithdrawnSum sqlAccrualSum specBalance specCurrent
    specAccrual specWithdrawn
  simp [sum_map_eq_foldr]

lemma currentBal_eq_specCurrent (s : Ledger) (userId : Int) :
    currentBal s userId = specCurrent s userId := by
  unfold currentBal
  rw [loadBalance_eq_specBalance]
  rfl

lemma inv_intake (s : Ledger) (number : String) (userId : Int)
    (h : LedgerInv s) : LedgerInv (createOrder s number userId).2 := by
  unfold createOrder createOrderWith
  by_cases hdup : (s.orders.any (fun o => o.number = number)) = true
  · rw [if_pos hdup]
    exact h
  · rw [if_neg hdup]
    obtain ⟨hpw, hpos, hbal⟩ := h
    have hdup' : ∀ x ∈ s.orders, ¬ x.number = number := by
      simpa [List.any_eq_true] using hdup
    refine ⟨?_, hpos, ?_⟩
    · rw [List.pairwise_append]
      refine ⟨hpw, by simp, ?_⟩
      intro a ha b hb
      simp only [List.mem_singleton] at hb
      subst hb
      intro hcontra
      exact hdup' a ha hcontra
    · intro u
      have hcur : specCurrent
          { s with orders := s.orders ++
              [⟨number, userId, OrderStatus.new, none⟩] } u =
          specCurrent s u := by
        unfold specCurrent
        rw [specAccrual_eq_contrib, specAccrual_eq_contrib,
          specWithdrawn_eq_contrib, specWithdrawn_eq_contrib]
        simp [contribOrder]
      rw [hcur]
      exact hbal u

lemma inv_spend (s : Ledger) (w : WithdrawalReq) (h : LedgerInv s) :
    LedgerInv (withdraw s w).2 := by
  unfold withdraw
  by_cases h1 : (loadBalance s w.userId).current < w.summ
  · rw [if_pos h1]
    exact h
  · rw [if_neg h1]
    by_cases h2 : w.summ ≤ 0
    · rw [if_pos h2]
      exact h
    · rw [if_neg h2]
      by_cases h3 : (s.withdrawals.any
          (fun r => r.userId = w.userId ∧ r.number = w.number)) = true
      · rw [if_pos h3]
        exact h
      · rw [if_neg h3]
        obtain ⟨hpw, hpos, hbal⟩ := h
        refine ⟨hpw, ?_, ?_⟩
        · intro x hx
          rcases List.mem_append.mp hx with hx | hx
          · exact hpos x hx
          · simp only [List.mem_singleton] at hx
            subst hx
            exact lt_of_not_le h2
        · intro u
          have hW : specWithdrawn
              { s with withdrawals := s.withdrawals ++
                  [⟨w.userId, w.number, w.summ⟩] } u =
              specWithdrawn s u +
                (if w.userId = u then w.summ else 0) := by
            rw [specWithdrawn_eq_contrib, specWithdrawn_eq_contrib]
            simp [contribWithdrawal]
          have hA : specAccrual
              { s with withdrawals := s.withdrawals ++
                  [⟨w.userId, w.number, w.summ⟩] } u =
              specAccrual s u := by
            rw [specAccrual_eq_contrib, specAccrual_eq_contrib]
          have hcur := hbal u
          have hle : w.summ ≤ specCurrent s w.userId := by
            have hge := le_of_not_lt h1
            rwa [loadBalance_eq_specBalance] at hge
          unfold specCurrent at hcur hle ⊢
          rw [hW, hA]
          by_cases hu : w.userId = u
          · subst hu
            rw [if_pos rfl]
            have hbu := hbal w.userId
            unfold specCurrent at hbu
            linarith
          · rw [if_neg hu]
            linarith

lemma inv_pollerUpdate (s : Ledger) (number : String) (st : OrderStatus)
    (accrual : ℚ)
    (_hterm : st = OrderStatus.processed ∨ st = OrderStatus.invalid)
    (hpolled : ∃ r ∈ s.orders, r.number = number ∧
      (r.status = OrderStatus.new ∨ r.status = OrderStatus.processing))
    (h : LedgerInv s) : LedgerInv (updateOrder s number st accrual).2 := by
  unfold updateOrder
  by_cases hneg : accrual < 0
  · rw [if_pos hneg]
    exact h
  · rw [if_neg hneg]
    by_cases hany : (s.orders.any (fun o => o.number = number)) = true
    · rw [if_pos hany]
      obtain ⟨hpw, hpos, hbal⟩ := h
      obtain ⟨r0, hr0mem, hr0num, hr0st⟩ := hpolled
      have hnumpres : ∀ o : OrderRow,
          (if o.number = number then
            { o with status := st, accrual := some accrual }
          else o).number = o.number := by
        intro o
        by_cases ho : o.number = number <;> simp [ho]
      refine ⟨?_, hpos, ?_⟩
      · refine List.Pairwise.map _ ?_ hpw
        intro a b hab
        rw [hnumpres a, hnumpres b]
        exact hab
      · intro u
        have honly : ∀ o ∈ s.orders, o.number = number →
            (o.status = OrderStatus.new ∨
              o.status = OrderStatus.processing) := by
          intro o ho honum
          by_cases heq : o = r0
          · subst heq
            exact hr0st
          · exfalso
            have hsymm : Symmetric
                (fun a b : OrderRow => a.number ≠ b.number) :=
              fun a b hab => Ne.symm hab
            exact hpw.forall hsymm ho hr0mem heq (honum.trans hr0num.symm)
        have hptwise : ∀ o ∈ s.orders, contribOrder u o ≤
            contribOrder u (if o.number = number then
              { o with status := st, accrual := some accrual } else o) := by
          intro o ho
          by_cases honum : o.number = number
          · have hst := honly o ho honum
            have hzero : contribOrder u o = 0 := by
              unfold contribOrder
              rcases hst with hst | hst <;> simp [hst]
            rw [hzero, if_pos honum]
            unfold contribOrder
            dsimp only
            by_cases hc : o.userId = u ∧ st = OrderStatus.processed
            · rw [if_pos hc]
              simpa using le_of_not_lt hneg
            · rw [if_neg hc]
          · rw [if_neg honum]
        have hA : specAccrual s u ≤ specAccrual
            { s with orders := s.orders.map (fun o =>
                if o.number = number then
                  { o with status := st, accrual := some accrual }
                else o) } u := by
          rw [specAccrual_eq_contrib, specAccrual_eq_contrib]
          simp only [List.map_map]
          exact List.sum_le_sum hptwise
        have hW : specWithdrawn
            { s with orders := s.orders.map (fun o =>
                if o.number = number then
                  { o with status := st, accrual := some accrual }
                else o) } u = specWithdrawn s u := by
          rw [specWithdrawn_eq_contrib, specWithdrawn_eq_contrib]
        have hcur := hbal u
        unfold specCurrent at hcur ⊢
        rw [hW]
        linarith
    · rw [if_neg hany]
      exact h

lemma reachable_inv {s : Ledger} (h : Reachable s) : LedgerInv s := by
  induction h with
  | init =>
      refine ⟨by simp [Ledger.empty], by simp [Ledger.empty], ?_⟩
      intro u
      simp [Ledger.empty, specCurrent, specAccrual, specWithdrawn]
  | step _ hstep ih =>
      cases hstep with
      | intake number userId => exact inv_intake _ number userId ih
      | pollerUpdate number st accrual hterm hpolled =>
          exact inv_pollerUpdate _ number st accrual hterm hpolled ih
      | spend w => exact inv_spend _ w ih

/-! ## Claim theorems -/

/-- C1 — No overdraft: in every ledger state reachable by the system's
operations, every user's derived balance (PROCESSED accrual sum minus
withdrawal sum) is non-negative; and every `Withdraw` call that commits
had its amount bounded by the balance recomputed inside the exclusive
transaction at the moment of the check. -/
theorem c1_no_overdraft :
    (∀ s : Ledger, Reachable s → ∀ userId : Int,
      0 ≤ specCurrent s userId) ∧
    (∀ (s : Ledger) (w : WithdrawalReq),
      (withdraw s w).1 = WithdrawResult.ok →
      w.summ ≤ currentBal s w.userId) := by
  constructor
  · intro s hs userId
    exact (reachable_inv hs).2.2 userId
  · intro s w hok
    unfold currentBal
    by_cases h1 : (loadBalance s w.userId).current < w.summ
    · exfalso
      unfold withdraw at hok
      rw [if_pos h1] at hok
      exact absurd hok (by simp)
    · exact le_of_not_lt h1

/-- Witness for C1 at concrete inputs: the initial state is reachable
with balance 0, and a committing withdrawal of 5 against a PROCESSED
accrual of 10 is bounded by the recomputed balance. -/
theorem c1_no_overdraft_witness :
    (0 : ℚ) ≤ specCurrent Ledger.empty 1 ∧
    (5 : ℚ) ≤ currentBal
      ⟨[⟨"1", 1, OrderStatus.processed, some 10⟩], []⟩ 1 :=
  ⟨c1_no_overdraft.1 Ledger.empty Reachable.init 1,
   c1_no_overdraft.2 ⟨[⟨"1", 1, OrderStatus.processed, some 10⟩], []⟩
     ⟨"2", 1, 5⟩ (by norm_num [withdraw, loadBalance, sqlWithdrawnSum,
       sqlAccrualSum])⟩

/-- C2 — Balance equation: `GetBalance` returns exactly
`current = Σ(accrual of PROCESSED orders) − Σ(withdrawals)` and
`withdrawn = Σ(withdrawals)`, and both sums are zero for a user with no
matching rows. -/
theorem c2_balance_equation :
    (∀ (s : Ledger) (userId : Int),
      getBalance s userId = specBalance s userId) ∧
    (∀ (s : Ledger) (userId : Int),
      (∀ w ∈ s.withdrawals, w.userId ≠ userId) →
      (∀ o ∈ s.orders,
        ¬(o.userId = userId ∧ o.status = OrderStatus.processed)) →
      getBalance s userId = ⟨0, 0⟩) := by
  constructor
  · intro s userId
    exact loadBalance_eq_specBalance s userId
  · intro s userId hw ho
    have hW : specWithdrawn s userId = 0 := by
      rw [specWithdrawn_eq_contrib]
      apply List.sum_eq_zero
      intro x hx
      obtain ⟨w, hwmem, hwx⟩ := List.mem_map.mp hx
      rw [← hwx]
      unfold contribWithdrawal
      rw [if_neg (hw w hwmem)]
    have hA : specAccrual s userId = 0 := by
      rw [specAccrual_eq_contrib]
      apply List.sum_eq_zero
      intro x hx
      obtain ⟨o, homem, hox⟩ := List.mem_map.mp hx
      rw [← hox]
      unfold contribOrder
      rw [if_neg (ho o homem)]
    rw [getBalance, loadBalance_eq_specBalance]
    unfold specBalance specCurrent
    rw [hW, hA]
    norm_num

/-- Witness for C2's empty-user component at a concrete input. -/
theorem c2_balance_equation_witness :
    getBalance Ledger.empty 7 = ⟨0, 0⟩ :=
  c2_balance_equation.2 Ledger.empty 7 (by simp [Ledger.empty])
    (by simp [Ledger.empty])

/-- C10 — Non-positive withdrawal amounts: the core has no positivity
check; for `a ≤ 0` with a non-negative balance the insufficient-funds
guard does not fire, the insert is attempted, and the schema constraint
`CHECK (summ > 0)` rejects it as a storage error (`Internal`), leaving
the ledger unchanged; consequently every stored withdrawal in a
reachable state has a positive amount. -/
theorem c10_nonpositive_amount_internal :
    (∀ (s : Ledger) (w : WithdrawalReq), w.summ ≤ 0 →
      0 ≤ currentBal s w.userId →
      withdraw s w = (WithdrawResult.internalErr, s)) ∧
    (∀ s : Ledger, Reachable s → ∀ x ∈ s.withdrawals, 0 < x.summ) := by
  constructor
  · intro s w hle hcur
    unfold currentBal at hcur
    unfold withdraw
    rw [if_neg (not_lt.mpr (hle.trans hcur)), if_pos hle]
  · intro s hs
    exact (reachable_inv hs).2.1

/-- Witness for C10 at a concrete input: `Withdraw(1, "1", 0)` on the
empty ledger is a storage error with no state change, and the initial
reachable state has only positive stored withdrawals (vacuously). -/
theorem c10_nonpositive_amount_internal_witness :
    withdraw Ledger.empty ⟨"1", 1, 0⟩ =
      (WithdrawResult.internalErr, Ledger.empty) ∧
    (∀ x ∈ Ledger.empty.withdrawals, 0 < x.summ) :=
  ⟨c10_nonpositive_amount_internal.1 Ledger.empty ⟨"1", 1, 0⟩ le_rfl
      (by norm_num [currentBal, loadBalance, sqlWithdrawnSum, sqlAccrualSum,
        Ledger.empty]),
   c10_nonpositive_amount_internal.2 Ledger.empty Reachable.init⟩

/-- C3 counterexample — the claimed biconditional "whenever the amount
is within the balance, `Withdraw` signals AlreadyExists exactly when a
`(userID, orderNumber)` row exists" fails at the concrete input
`Withdraw(1, "9", 0)` on `exLedgerC3`: the duplicate row `(1, "9")` is
present and `0 ≤ current = 0`, yet the `CHECK (summ > 0)` violation is
hit before the duplicate key, so the call signals a storage error, not
AlreadyExists. -/
theorem c3_counterexample : ¬ withdrawDuplicateClaim := by
  intro h
  have hiff := h exLedgerC3 ⟨"9", 1, 0⟩
    (by norm_num [currentBal, loadBalance, sqlWithdrawnSum, sqlAccrualSum,
      exLedgerC3])
  have hlhs : (withdraw exLedgerC3 ⟨"9", 1, 0⟩).1 =
      WithdrawResult.internalErr := by
    norm_num [withdraw, loadBalance, sqlWithdrawnSum, sqlAccrualSum,
      exLedgerC3]
  have hdup := hiff.mpr (by decide)
  rw [hlhs] at hdup
  simp at hdup

/-- C3 (amended) — Withdraw error protocol and atomicity:
`InsufficientFunds` is signalled exactly when the amount exceeds the
balance recomputed inside the transaction (this check precedes the
insert); when the amount is within the balance AND positive (so the
`CHECK (summ > 0)` schema constraint passes), `AlreadyExists` is
signalled exactly when a `(userID, orderNumber)` row already exists;
when the amount is within the balance but non-positive, the check
violation yields a storage error; and every failing outcome leaves the
ledger unchanged (transaction rolled back). -/
theorem c3_withdraw_protocol (s : Ledger) (w : WithdrawalReq) :
    ((withdraw s w).1 = WithdrawResult.insufficientFunds ↔
      currentBal s w.userId < w.summ) ∧
    (¬ currentBal s w.userId < w.summ → 0 < w.summ →
      ((withdraw s w).1 = WithdrawResult.alreadyExists ↔
        (s.withdrawals.any
          (fun r => r.userId = w.userId ∧ r.number = w.number)) = true)) ∧
    (¬ currentBal s w.userId < w.summ → w.summ ≤ 0 →
      (withdraw s w).1 = WithdrawResult.internalErr) ∧
    ((withdraw s w).1 ≠ WithdrawResult.ok → (withdraw s w).2 = s) := by
  unfold currentBal withdraw
  by_cases h1 : (loadBalance s w.userId).current < w.summ
  · rw [if_pos h1]
    exact ⟨by simp [h1], fun hc => absurd h1 hc, fun hc => absurd h1 hc,
      fun _ => rfl⟩
  · rw [if_neg h1]
    by_cases h2 : w.summ ≤ 0
    · rw [if_pos h2]
      exact ⟨by simp [h1], fun _ hpos => absurd hpos (not_lt.mpr h2),
        fun _ _ => rfl, fun _ => rfl⟩
    · rw [if_neg h2]
      by_cases h3 : (s.withdrawals.any
          (fun r => r.userId = w.userId ∧ r.number = w.number)) = true
      · rw [if_pos h3]
        exact ⟨by simp [h1], fun _ _ => iff_of_true rfl h3,
          fun _ hle => absurd hle h2, fun _ => rfl⟩
      · rw [if_neg h3]
        exact ⟨by simp [h1], fun _ _ => iff_of_false (by simp) h3,
          fun _ hle => absurd hle h2, fun hne => absurd rfl hne⟩

/-- Witness for C3 (amended) at concrete inputs: a request for 3 against
a balance of 0 signals InsufficientFunds, and a duplicate-keyed request
for 1 against a balance of 3 signals AlreadyExists. -/
theorem c3_withdraw_protocol_witness :
    (withdraw exLedgerC3 ⟨"9", 1, 3⟩).1 =
      WithdrawResult.insufficientFunds ∧
    (withdraw ⟨[⟨"1", 1, OrderStatus.processed, some 5⟩],
        [⟨1, "9", 2⟩]⟩ ⟨"9", 1, 1⟩).1 = WithdrawResult.alreadyExists :=
  ⟨(c3_withdraw_protocol exLedgerC3 ⟨"9", 1, 3⟩).1.mpr
      (by norm_num [currentBal, loadBalance, sqlWithdrawnSum, sqlAccrualSum,
        exLedgerC3]),
   ((c3_withdraw_protocol ⟨[⟨"1", 1, OrderStatus.processed, some 5⟩],
        [⟨1, "9", 2⟩]⟩ ⟨"9", 1, 1⟩).2.1
      (by norm_num [currentBal, loadBalance, sqlWithdrawnSum, sqlAccrualSum])
      (by norm_num)).mpr (by decide)⟩

/-- C4 — CreateOrder classification, evaluated at the failing input
(user 1 re-uploads their own order `"9278923470"`): with the
`errors.go` classifier the follow-up lookup names the non-existent
column `order`, so the call reports a storage error (HTTP 500) instead
of the AlreadyOwned no-op success, though the ledger is unchanged; with
the column name repaired the classification is still swapped (409
Conflict for the owner); the part_009 revision — matching the handler
and the repo's handler tests — yields AlreadyOwned for the owner and
Conflict for another user. -/
theorem c4_create_order_classification :
    intakeOutcome (createOrder exLedgerC4 "9278923470" 1).1 =
      IntakeOutcome.internalOutcome ∧
    (createOrder exLedgerC4 "9278923470" 1).2 = exLedgerC4 ∧
    intakeOutcome
      (createOrderWith isUserOrderColumnFixed exLedgerC4 "9278923470" 1).1 =
      IntakeOutcome.conflict ∧
    intakeOutcome (createOrderPart009 exLedgerC4 "9278923470" 1).1 =
      IntakeOutcome.alreadyOwned ∧
    intakeOutcome (createOrderPart009 exLedgerC4 "9278923470" 2).1 =
      IntakeOutcome.conflict := by
  refine ⟨?_, ?_, ?_, ?_, ?_⟩ <;> decide

/-- C5 — Reconciliation scenario, evaluated at the failing input (order
`"79927398713"` NEW for user 1; authority answers
`200 {"order": "79927398713", "status": "PROCESSED", "accrual": 500}`):
`json.Unmarshal` leaves `Number = ""` (the body key is `order`, the
struct tag is `number`), so the pass updates order `""`, gets
NotFound, signals an error, and leaves the ledger unchanged with
`current = 0`; under the decoding the protocol specifies the same pass
makes the order PROCESSED/500 and the balance 500. -/
theorem c5_reconciliation_scenario :
    goUnmarshalOrder ⟨"79927398713", "PROCESSED", 500⟩ =
      ⟨"", "PROCESSED", 500⟩ ∧
    (processPass exLedgerC5 [exRespC5]).1 = exLedgerC5 ∧
    (processPass exLedgerC5 [exRespC5]).2.2 = true ∧
    (getBalance exLedgerC5 1).current = 0 ∧
    (processPassWith specUnmarshalOrder exLedgerC5 [exRespC5]).1.orders =
      [⟨"79927398713", 1, OrderStatus.processed, some 500⟩] ∧
    (getBalance
      (processPassWith specUnmarshalOrder exLedgerC5 [exRespC5]).1 1).current
      = 500 := by
  refine ⟨rfl, by decide, by decide, ?_, by decide, ?_⟩
  · simp [getBalance, loadBalance, sqlWithdrawnSum, sqlAccrualSum,
      exLedgerC5]
  · have h500 : ¬ ((500 : ℚ) < 0) := by norm_num
    simp [getBalance, loadBalance, sqlWithdrawnSum, sqlAccrualSum,
      processPassWith, getAccrualWith, specUnmarshalOrder, terminalStatusOf,
      updateOrder, exLedgerC5, exRespC5, h500]

/-- C6 counterexample — "UpdateOrder never regresses an order that
already holds a terminal status" fails at a concrete input: on a ledger
whose only order is PROCESSED with accrual 100, the call
`UpdateOrder("1", NEW, 0)` succeeds and overwrites the row back to NEW
(the UPDATE has no guard on the previous status). -/
theorem c6_counterexample : ¬ updateMonotoneClaim := by
  intro h
  have hinst := h exLedgerC6 "1" OrderStatus.new 0
    ⟨"1", 1, OrderStatus.processed, some 100⟩ (by decide) rfl (Or.inl rfl)
    ⟨"1", 1, OrderStatus.new, some 0⟩ (by decide) rfl
  simp at hinst

/-- C6 (amended) — UpdateOrder overwrites the named order's status and
accrual unconditionally; under the poller's invocation pattern (a
terminal target status, applied when every row bearing the number is
still NEW or PROCESSING) each such row ends terminal or stays
unresolved, so no terminal row is ever regressed; and issuing the
identical update twice is idempotent — the second call returns the same
outcome and leaves the state exactly as after the first. -/
theorem c6_update_monotone_idempotent (s : Ledger) (number : String)
    (st : OrderStatus) (accrual : ℚ) :
    ((st = OrderStatus.processed ∨ st = OrderStatus.invalid) →
      (∀ r ∈ s.orders, r.number = number →
        (r.status = OrderStatus.new ∨ r.status = OrderStatus.processing)) →
      ∀ r' ∈ (updateOrder s number st accrual).2.orders,
        r'.number = number →
        (r'.status = st ∨ r'.status = OrderStatus.new ∨
          r'.status = OrderStatus.processing)) ∧
    updateOrder (updateOrder s number st accrual).2 number st accrual =
      updateOrder s number st accrual := by
  constructor
  · intro _hterm hunres r' hr' hnum
    unfold updateOrder at hr'
    by_cases hneg : accrual < 0
    · rw [if_pos hneg] at hr'
      exact Or.inr (hunres r' hr' hnum)
    · rw [if_neg hneg] at hr'
      by_cases hany : (s.orders.any (fun o => o.number = number)) = true
      · rw [if_pos hany] at hr'
        obtain ⟨o, ho, hupd⟩ := List.mem_map.mp hr'
        by_cases honum : o.number = number
        · rw [if_pos honum] at hupd
          rw [← hupd]
          exact Or.inl rfl
        · rw [if_neg honum] at hupd
          rw [← hupd] at hnum
          exact absurd hnum honum
      · rw [if_neg hany] at hr'
        exact Or.inr (hunres r' hr' hnum)
  · by_cases hneg : accrual < 0
    · have h1 : updateOrder s number st accrual =
          (UpdateResult.internalErr, s) := by
        unfold updateOrder
        rw [if_pos hneg]
      rw [h1]
      exact h1
    · by_cases hany : (s.orders.any (fun o => o.number = number)) = true
      · have h1 : updateOrder s number st accrual =
            (UpdateResult.ok, { s with orders := s.orders.map (fun o =>
              if o.number = number then
                { o with status := st, accrual := some accrual }
              else o) }) := by
          unfold updateOrder
          rw [if_neg hneg, if_pos hany]
        rw [h1]
        have hanymap : (((s.orders.map (fun o =>
            if o.number = number then
              { o with status := st, accrual := some accrual }
            else o))).any (fun o => o.number = number)) = true := by
          obtain ⟨x, hx, hxn⟩ := List.any_eq_true.mp hany
          refine List.any_eq_true.mpr ⟨(fun o =>
            if o.number = number then
              { o with status := st, accrual := some accrual }
            else o) x, List.mem_map_of_mem _ hx, ?_⟩
          simp only [decide_eq_true_eq] at hxn ⊢
          rw [if_pos hxn]
          exact hxn
        have hmapmap : ((s.orders.map (fun o =>
            if o.number = number then
              { o with status := st, accrual := some accrual }
            else o)).map (fun o =>
            if o.number = number then
              { o with status := st, accrual := some accrual }
            else o)) = s.orders.map (fun o =>
            if o.number = number then
              { o with status := st, accrual := some accrual }
            else o) := by
          rw [List.map_map]
          apply List.map_congr_left
          intro o _
          by_cases ho : o.number = number <;> simp [ho]
        unfold updateOrder
        rw [if_neg hneg, if_pos hanymap, hmapmap]
      · have h1 : updateOrder s number st accrual =
            (UpdateResult.notFound, s) := by
          unfold updateOrder
          rw [if_neg hneg, if_neg hany]
        rw [h1]
        exact h1

/-- Witness for C6 (amended) at a concrete input: updating the NEW
order `"5"` to PROCESSED/100 leaves every row named `"5"` terminal or
unresolved, and repeating the identical update is a no-op with the same
outcome. -/
theorem c6_update_monotone_idempotent_witness :
    (∀ r' ∈ (updateOrder ⟨[⟨"5", 1, OrderStatus.new, none⟩], []⟩ "5"
        OrderStatus.processed 100).2.orders, r'.number = "5" →
      (r'.status = OrderStatus.processed ∨ r'.status = OrderStatus.new ∨
        r'.status = OrderStatus.processing)) ∧
    updateOrder (updateOrder ⟨[⟨"5", 1, OrderStatus.new, none⟩], []⟩ "5"
        OrderStatus.processed 100).2 "5" OrderStatus.processed 100 =
      updateOrder ⟨[⟨"5", 1, OrderStatus.new, none⟩], []⟩ "5"
        OrderStatus.processed 100 :=
  ⟨(c6_update_monotone_idempotent ⟨[⟨"5", 1, OrderStatus.new, none⟩], []⟩
      "5" OrderStatus.processed 100).1 (Or.inl rfl) (by decide),
   (c6_update_monotone_idempotent ⟨[⟨"5", 1, OrderStatus.new, none⟩], []⟩
      "5" OrderStatus.processed 100).2⟩

/-- C7 — Terminal-only ledger writes by the Poller: `UpdateOrder` is
invoked for a polled order exactly when the authority answered `200`
with a body whose status is PROCESSED or INVALID; for every other
outcome of the response space the per-order step leaves the ledger
untouched (the order stays as it was, in NEW/PROCESSING); and the
`Start` loop consumes a pass's errors itself — an erroring pass does not
stop the loop, whose only externally visible result is the ledger. -/
theorem c7_terminal_only_writes :
    (∀ (s : Ledger) (resp : AccrualResp),
      (getAccrual s resp).invokedUpdate ≠ none ↔
        ∃ b, resp = AccrualResp.ok200 (some b) ∧
          (b.status = "PROCESSED" ∨ b.status = "INVALID")) ∧
    (∀ (s : Ledger) (resp : AccrualResp),
      (getAccrual s resp).invokedUpdate = none →
      (getAccrual s resp).state = s) ∧
    (∀ (s : Ledger) (resps : List AccrualResp)
      (rest : List (List AccrualResp)),
      runPoller s (resps :: rest) = runPoller (processPass s resps).1 rest) := by
  refine ⟨?_, ?_, ?_⟩
  · intro s resp
    cases resp with
    | transportErr => simp [getAccrual, getAccrualWith]
    | noContent => simp [getAccrual, getAccrualWith]
    | serverErr => simp [getAccrual, getAccrualWith]
    | tooManyRequests r => cases r <;> simp [getAccrual, getAccrualWith]
    | ok200 body =>
        cases body with
        | none => simp [getAccrual, getAccrualWith]
        | some b =>
            by_cases hterm : b.status = "PROCESSED" ∨ b.status = "INVALID"
            · simp only [getAccrual, getAccrualWith, goUnmarshalOrder,
                if_pos hterm]
              exact iff_of_true (by simp) ⟨b, rfl, hterm⟩
            · simp only [getAccrual, getAccrualWith, goUnmarshalOrder,
                if_neg hterm]
              refine iff_of_false (by simp) ?_
              rintro ⟨b', hb', hterm'⟩
              obtain rfl : b = b' := by
                injection hb' with h
                injection h
              exact hterm hterm'
  · intro s resp hnone
    cases resp with
    | transportErr => rfl
    | noContent => rfl
    | serverErr => rfl
    | tooManyRequests r => cases r <;> rfl
    | ok200 body =>
        cases body with
        | none => rfl
        | some b =>
            by_cases hterm : b.status = "PROCESSED" ∨ b.status = "INVALID"
            · exfalso
              simp [getAccrual, getAccrualWith, goUnmarshalOrder,
                if_pos hterm] at hnone
            · simp [getAccrual, getAccrualWith, goUnmarshalOrder,
                if_neg hterm]
  · intro s resps rest
    rfl

/-- Witness for C7's frame component at a concrete input: a `204`
response leaves the ledger untouched. -/
theorem c7_terminal_only_writes_witness :
    (getAccrual exLedgerC5 AccrualResp.noContent).state = exLedgerC5 :=
  c7_terminal_only_writes.2.1 exLedgerC5 AccrualResp.noContent rfl

lemma retry_fold_couple (evs : List RLEvent) :
    ∀ (accL : Option RLEvent) (accP : ℕ),
      (∀ e n, accL = some e → e.retry = some n → accP = n) →
      ∀ e n,
        evs.foldl (fun acc ev => if ev.retry.isSome then some ev else acc)
          accL = some e →
        e.retry = some n →
        evs.foldl (fun acc ev => ev.retry.getD acc) accP = n := by
  induction evs with
  | nil =>
      intro accL accP hQ e n h1 h2
      exact hQ e n h1 h2
  | cons ev t ih =>
      intro accL accP hQ e n h1 h2
      simp only [List.foldl_cons] at h1 ⊢
      refine ih _ _ ?_ e n h1 h2
      intro e' n' hL' hr'
      by_cases hs : ev.retry.isSome
      · rw [if_pos hs] at hL'
        injection hL' with he'
        subst he'
        rw [hr']
        rfl
      · rw [if_neg hs] at hL'
        have hnone : ev.retry = none := Option.not_isSome_iff_eq_none.mp hs
        rw [hnone]
        exact hQ e' n' hL' hr'

lemma pendingOut_eq_of_lastRetry (evs : List RLEvent) (e : RLEvent)
    (n : ℕ) (h1 : lastRetryEvent evs = some e) (h2 : e.retry = some n) :
    pendingOut evs = n :=
  retry_fold_couple evs none 0 (by intro e' n' h; cases h) e n h1 h2

lemma lastRetry_fold_mem (evs : List RLEvent) :
    ∀ (acc : Option RLEvent) (e : RLEvent),
      evs.foldl (fun acc ev => if ev.retry.isSome then some ev else acc)
        acc = some e →
      e ∈ evs ∨ acc = some e := by
  induction evs with
  | nil =>
      intro acc e h
      exact Or.inr h
  | cons ev t ih =>
      intro acc e h
      simp only [List.foldl_cons] at h
      rcases ih _ e h with hmem | hacc
      · exact Or.inl (List.mem_cons_of_mem _ hmem)
      · by_cases hs : ev.retry.isSome
        · rw [if_pos hs] at hacc
          injection hacc with he
          subst he
          exact Or.inl (List.mem_cons_self _ _)
        · rw [if_neg hs] at hacc
          exact Or.inr hacc

lemma lastRetryEvent_mem (evs : List RLEvent) (e : RLEvent)
    (h : lastRetryEvent evs = some e) : e ∈ evs := by
  rcases lastRetry_fold_mem evs none e h with hmem | hacc
  · exact hmem
  · cases hacc

/-- C8 counterexample — "no further lookups for at least N seconds from
ANY 429 response" fails on the two-429 trace: the first 429 at `t = 1`
asks for 100 seconds, but the second 429 at `t = 2` overwrites the
single shared `sendAfter` with 1 second, so the next pass dispatches at
`t = 4 < 1 + 100`. -/
theorem c8_counterexample : ¬ rateLimitRespectClaim := by
  intro h
  have hwf : wfTrace exTraceTwo429 := by
    intro k p hk
    match k with
    | 0 =>
        simp only [exTraceTwo429, List.get?] at hk
        injection hk with hk
        subst hk
        refine ⟨?_, ?_, ?_⟩
        · intro e he
          simp only [dispatchTime, pendingIn, exTraceTwo429, List.get?]
          fin_cases he <;> norm_num
        · simp
        · intro q hq
          simp only [exTraceTwo429, List.get?] at hq
          injection hq with hq
          subst hq
          constructor
          · simp only [dispatchTime, pendingIn, exTraceTwo429, List.get?]
            norm_num
          · intro e he
            fin_cases he <;> norm_num
    | 1 =>
        simp only [exTraceTwo429, List.get?] at hk
        injection hk with hk
        subst hk
        refine ⟨by simp, by simp, ?_⟩
        intro q hq
        simp [exTraceTwo429, List.get?] at hq
    | (m + 2) =>
        simp [exTraceTwo429, List.get?] at hk
  have hbound := h exTraceTwo429 hwf 0 ⟨0, [⟨1, some 100⟩, ⟨2, some 1⟩]⟩
    rfl ⟨1, some 100⟩ (List.mem_cons_self _ _) 100 rfl 1 ⟨3, []⟩
    Nat.zero_lt_one rfl
  have hd : dispatchTime exTraceTwo429 1 = 4 := by
    simp only [dispatchTime, pendingIn, pendingOut, exTraceTwo429,
      List.get?, List.foldl]
    norm_num
  rw [hd] at hbound
  norm_num at hbound

/-- C8 (amended) — Rate-limit respect for the surviving delay: a `429`
stores its parsed `Retry-After` into the single shared `sendAfter` and
signals a transient error without touching the ledger; and if the LAST
`429` of a pass carried `Retry-After: N` (its value is what survives
the overwrites), the next pass dispatches no lookup until at least `N`
seconds after that response, because it sleeps the pending delay off
(resetting it to zero) before dispatching. -/
theorem c8_rate_limit_respected (tr : List PassT) (hwf : wfTrace tr)
    (k : ℕ) (p q : PassT) (hk : tr.get? k = some p)
    (hk1 : tr.get? (k + 1) = some q) (e : RLEvent)
    (hlast : lastRetryEvent p.events = some e) (n : ℕ)
    (hn : e.retry = some n) :
    e.t + (n : ℚ) ≤ dispatchTime tr (k + 1) ∧
    (∀ (s : Ledger) (r : Int),
      (getAccrual s (AccrualResp.tooManyRequests (some r))).storeDelay =
        some ((r % 4294967296).toNat) ∧
      (getAccrual s (AccrualResp.tooManyRequests (some r))).isErr = true ∧
      (getAccrual s (AccrualResp.tooManyRequests (some r))).state = s) := by
  constructor
  · have hmem : e ∈ p.events := lastRetryEvent_mem p.events e hlast
    have hstart : e.t ≤ q.start := ((hwf k p hk).2.2 q hk1).2 e hmem
    have hpend : pendingIn tr (k + 1) = n := by
      simp only [pendingIn, hk]
      exact pendingOut_eq_of_lastRetry p.events e n hlast hn
    simp only [dispatchTime, hk1, hpend]
    exact add_le_add_right hstart _
  · intro s r
    exact ⟨rfl, rfl, rfl⟩

/-- Witness for C8 (amended) at the single-429 trace: the 429 at
`t = 1` with `Retry-After: 2` delays the next pass's dispatch to
`t = 7 ≥ 1 + 2`. -/
theorem c8_rate_limit_respected_witness :
    (1 : ℚ) + (2 : ℕ) ≤ dispatchTime exTraceOne429 1 :=
  (c8_rate_limit_respected exTraceOne429
    (by
      intro k p hk
      match k with
      | 0 =>
          simp only [exTraceOne429, List.get?] at hk
          injection hk with hk
          subst hk
          refine ⟨?_, ?_, ?_⟩
          · intro e he
            simp only [dispatchTime, pendingIn, exTraceOne429, List.get?]
            fin_cases he <;> norm_num
          · simp
          · intro q hq
            simp only [exTraceOne429, List.get?] at hq
            injection hq with hq
            subst hq
            constructor
            · simp only [dispatchTime, pendingIn, exTraceOne429, List.get?]
              norm_num
            · intro e he
              fin_cases he <;> norm_num
      | 1 =>
          simp only [exTraceOne429, List.get?] at hk
          injection hk with hk
          subst hk
          refine ⟨by simp, by simp, ?_⟩
          intro q hq
          simp [exTraceOne429, List.get?] at hq
      | (m + 2) =>
          simp [exTraceOne429, List.get?] at hk)
    0 ⟨0, [⟨1, some 2⟩]⟩ ⟨5, []⟩ rfl rfl ⟨1, some 2⟩ rfl 2 rfl).1

lemma sqlW_getD (s : Ledger) (userId : Int) :
    (sqlWithdrawnSum s userId).getD 0 = specWithdrawn s userId := by
  unfold sqlWithdrawnSum specWithdrawn
  simp [sum_map_eq_foldr]

lemma sqlA_getD (s : Ledger) (userId : Int) :
    (sqlAccrualSum s userId).getD 0 = specAccrual s userId := by
  unfold sqlAccrualSum specAccrual
  simp [sum_map_eq_foldr]

lemma withdraw_orders (s : Ledger) (w : WithdrawalReq) :
    (withdraw s w).2.orders = s.orders := by
  simp only [withdraw]
  split_ifs <;> rfl

lemma createOrder_withdrawals (s : Ledger) (number : String) (userId : Int) :
    (createOrder s number userId).2.withdrawals = s.withdrawals := by
  unfold createOrder createOrderWith
  split_ifs <;> rfl

lemma updateOrder_withdrawals (s : Ledger) (number : String)
    (st : OrderStatus) (accrual : ℚ) :
    (updateOrder s number st accrual).2.withdrawals = s.withdrawals := by
  unfold updateOrder
  split_ifs <;> rfl

lemma specAccrual_congr {s1 s2 : Ledger} (userId : Int)
    (h : s1.orders = s2.orders) :
    specAccrual s1 userId = specAccrual s2 userId := by
  unfold specAccrual
  rw [h]

lemma specWithdrawn_congr {s1 s2 : Ledger} (userId : Int)
    (h : s1.withdrawals = s2.withdrawals) :
    specWithdrawn s1 userId = specWithdrawn s2 userId := by
  unfold specWithdrawn
  rw [h]

lemma stateAt_succ (s0 : Ledger) (cs : List CommitOp) (i : ℕ) (c : CommitOp)
    (hc : cs.get? i = some c) :
    stateAt s0 cs (i + 1) = applyCommit (stateAt s0 cs i) c := by
  unfold stateAt
  rw [List.get?_eq_getElem?] at hc
  rw [List.take_succ, hc]
  simp [List.foldl_append]

lemma stateAt_ex_one : stateAt exHistBase exHistOps 1 =
    ⟨[⟨"1", 1, OrderStatus.processed, some 10⟩,
      ⟨"2", 1, OrderStatus.new, none⟩], [⟨1, "7", 10⟩]⟩ := by
  have h1 : ¬ ((10 : ℚ) - 0 < 10) := by norm_num
  have h2 : ¬ ((10 : ℚ) ≤ 0) := by norm_num
  simp [stateAt, exHistBase, exHistOps, applyCommit, withdraw, loadBalance,
    sqlWithdrawnSum, sqlAccrualSum, h1, h2]

lemma stateAt_ex_two : stateAt exHistBase exHistOps 2 =
    ⟨[⟨"1", 1, OrderStatus.processed, some 10⟩,
      ⟨"2", 1, OrderStatus.processed, some 500⟩], [⟨1, "7", 10⟩]⟩ := by
  have hc : exHistOps.get? 1 =
      some (CommitOp.update "2" OrderStatus.processed 500) := rfl
  rw [stateAt_succ exHistBase exHistOps 1 _ hc, stateAt_ex_one]
  have h1 : ¬ ((500 : ℚ) < 0) := by norm_num
  simp [applyCommit, updateOrder, h1]

/-- C9 counterexample — "every GetBalance read is consistent with a
single committed state" fails on the history `exHistBase`/`exHistOps`:
the withdrawn sum is scanned before the withdrawal of 10 commits and
the accrual sum after the order update to PROCESSED/500 commits, so the
returned pair is `(current 510, withdrawn 0)`, which matches the
balance equation at none of the three committed states. -/
theorem c9_counterexample : ¬ singleSnapshotClaim := by
  intro h
  obtain ⟨k, hk, heq⟩ := h exHistBase exHistOps 1 0 2 (by norm_num)
    (by norm_num [exHistOps])
  have hb : getBalanceRC exHistBase exHistOps 0 2 1 = ⟨510, 0⟩ := by
    unfold getBalanceRC
    rw [stateAt_ex_two]
    norm_num [stateAt, exHistBase, sqlWithdrawnSum, sqlAccrualSum]
  rw [hb] at heq
  have hk2 : k ≤ 2 := by simpa [exHistOps] using hk
  clear hk
  interval_cases k
  · rw [show stateAt exHistBase exHistOps 0 = exHistBase from rfl] at heq
    simp [specBalance, specCurrent, specAccrual, specWithdrawn, exHistBase,
      Balance.mk.injEq] at heq
  · rw [stateAt_ex_one] at heq
    simp [specBalance, specCurrent, specAccrual, specWithdrawn,
      Balance.mk.injEq] at heq
  · rw [stateAt_ex_two] at heq
    simp [specBalance, specCurrent, specAccrual, specWithdrawn,
      Balance.mk.injEq] at heq

/-- C9 (amended) — the two sums of a `GetBalance` read are taken by two
statements of a READ COMMITTED transaction and may see two successive
committed states; since every committed operation writes only one of
the two tables, the returned pair is still consistent with a single
committed state whenever at most one commit interleaves the two
statements — but not in general (see the counterexample). -/
theorem c9_single_snapshot_when_adjacent (s0 : Ledger) (cs : List CommitOp)
    (userId : Int) (i j : ℕ) (hij : i ≤ j) (hji : j ≤ i + 1)
    (hlen : j ≤ cs.length) :
    rcConsistent s0 cs userId (getBalanceRC s0 cs i j userId) := by
  rcases eq_or_lt_of_le hij with heq | hlt
  · subst heq
    refine ⟨i, hlen, ?_⟩
    unfold getBalanceRC specBalance specCurrent
    rw [sqlW_getD, sqlA_getD]
  · have hj : j = i + 1 := by omega
    subst hj
    have hi : i < cs.length := by omega
    cases hget : cs.get? i with
    | none =>
        exfalso
        exact absurd (List.get?_eq_none.mp hget) (not_le.mpr hi)
    | some c =>
        have hsucc := stateAt_succ s0 cs i c hget
        cases c with
        | spend w =>
            refine ⟨i, by omega, ?_⟩
            have horders : (stateAt s0 cs (i + 1)).orders =
                (stateAt s0 cs i).orders := by
              rw [hsucc]
              exact withdraw_orders _ _
            unfold getBalanceRC specBalance specCurrent
            rw [sqlW_getD, sqlA_getD, specAccrual_congr userId horders]
        | intake number userId' =>
            refine ⟨i + 1, by omega, ?_⟩
            have hw : (stateAt s0 cs (i + 1)).withdrawals =
                (stateAt s0 cs i).withdrawals := by
              rw [hsucc]
              exact createOrder_withdrawals _ _ _
            unfold getBalanceRC specBalance specCurrent
            rw [sqlW_getD, sqlA_getD, specWithdrawn_congr userId hw]
        | update number st accrual =>
            refine ⟨i + 1, by omega, ?_⟩
            have hw : (stateAt s0 cs (i + 1)).withdrawals =
                (stateAt s0 cs i).withdrawals := by
              rw [hsucc]
              exact updateOrder_withdrawals _ _ _ _
            unfold getBalanceRC specBalance specCurrent
            rw [sqlW_getD, sqlA_getD, specWithdrawn_congr userId hw]

/-- Witness for C9 (amended) at a concrete input: the read spanning only
the withdrawal commit of the example history is consistent with a
single state. -/
theorem c9_single_snapshot_when_adjacent_witness :
    rcConsistent exHistBase exHistOps 1
      (getBalanceRC exHistBase exHistOps 0 1 1) :=
  c9_single_snapshot_when_adjacent exHistBase exHistOps 1 0 1
    (by norm_num) (by norm_num) (by decide)

end Loyalty
